import Mathlib

/-!
Shallow embedding of `src/concurrent_deque/TDequeConcurrent.h`.

The template class `TDequeConcurrent<T>` wraps a `std::deque<T>` behind one
mutex and one condition variable.  We model:

* the protected collection `_collection` as a `List α` (front = head);
* the lock/condition-variable behaviour of each public member as an explicit
  event trace (`Event`), so that statements about ordering of lock
  acquisition, lock release, condition waits and `notify_one` calls can be
  proved;
* the condition-variable wait loop `while (_collection.empty()) wait(lock);`
  as the function `waitLoop`, parameterised by a wake schedule: the list of
  collection states observed each time the wait returns and the lock is
  re-acquired.  An exhausted schedule on an empty collection means the call
  blocks forever, represented by `none`;
* in-place construction that may throw (`emplace`/`push` forwarding to the
  element constructor) as an `Option α` argument: `none` means the
  constructor threw.  `std::deque` gives the strong guarantee for
  insertions at either end, so a throwing construction leaves the
  collection unchanged;
* the literal return expression of `front()`/`back()`, which is
  `return &_collection.front();` (the address of the stored element, not a
  copy), as the constructor `CRet.byAddress` carrying the index of the
  element inside the collection; a genuine copy would be `CRet.byValue`.
-/

namespace TDequeConcurrent

/-- Observable synchronisation events of one member-function call, in
program order: mutex acquisition and release, a return from
`_condNewData.wait(lock)`, a call to `_condNewData.notify_one()`, and the
mutation performed by `addData_protected`'s functor. -/
inductive Event : Type
| lockAcquire : Event
| lockRelease : Event
| cvWait : Event
| cvNotifyOne : Event
| insertElem : Event
deriving DecidableEq

/-- Result of one call that may mutate the collection: the collection state
after the call, the event trace of the call, and whether the call ended by
propagating an exception to the caller. -/
structure OpResult (α : Type) where
  state : List α
  trace : List Event
  threw : Bool
deriving DecidableEq

/-- The loop `while (_collection.empty()) { _condNewData.wait(lock); }`.
`wakes` is the schedule of collection states seen at each return from
`wait`; the result is the state at which the loop exits together with the
number of waits performed, or `none` if the schedule is exhausted while the
collection is still empty (the thread remains blocked). -/
def waitLoop {α : Type} : List (List α) → List α → Option (List α × Nat)
| wakes, s =>
  if s.isEmpty then
    match wakes with
    | [] => none
    | w :: rest => (waitLoop rest w).map (fun p => (p.1, p.2 + 1))
  else
    some (s, 0)

/-- Event trace of a blocking member: acquire the mutex, return from `wait`
`n` times, finally release the mutex at scope exit. -/
def blockTrace (n : Nat) : List Event :=
  Event.lockAcquire :: (List.replicate n Event.cvWait ++ [Event.lockRelease])

/-- `addData_protected(fct)`: acquire the `unique_lock`, run the mutating
functor, `unlock()`, then `notify_one()`.  If the functor throws, the
`unique_lock` destructor still releases the mutex, no element is inserted
(strong guarantee of `std::deque` end insertions) and no notification is
issued. -/
def addData_protected {α : Type} (fct : List α → Option (List α)) (s : List α) :
    OpResult α :=
  match fct s with
  | some t =>
      ⟨t, [Event.lockAcquire, Event.insertElem, Event.lockRelease,
           Event.cvNotifyOne], false⟩
  | none => ⟨s, [Event.lockAcquire, Event.lockRelease], true⟩

/-- `push_front`: forward the arguments to `_collection.push_front` under
`addData_protected`.  `ctor` is the element construction, `none` if it
throws. -/
def push_front {α : Type} (ctor : Option α) (s : List α) : OpResult α :=
  addData_protected (fun c => ctor.map (fun x => x :: c)) s

/-- `push_back`: forward the arguments to `_collection.push_back` under
`addData_protected`. -/
def push_back {α : Type} (ctor : Option α) (s : List α) : OpResult α :=
  addData_protected (fun c => ctor.map (fun x => c ++ [x])) s

/-- `emplace_front`: in-place construction at the front under
`addData_protected`. -/
def emplace_front {α : Type} (ctor : Option α) (s : List α) : OpResult α :=
  addData_protected (fun c => ctor.map (fun x => x :: c)) s

/-- `emplace_back`: in-place construction at the back under
`addData_protected`. -/
def emplace_back {α : Type} (ctor : Option α) (s : List α) : OpResult α :=
  addData_protected (fun c => ctor.map (fun x => c ++ [x])) s

/-- `clear()`: `lock_guard` acquisition, `_collection.clear()`, release.
No wait and no notification. -/
def clear {α : Type} (_s : List α) : OpResult α :=
  ⟨[], [Event.lockAcquire, Event.lockRelease], false⟩

/-- What `front()`/`back()` hand back to the caller.  The source's intended
behaviour (doc comment and the commented-out lines) is an independent copy,
`byValue`; the live code `return &_collection.front();` yields the address
of the element inside `_collection`, `byAddress i` with `i` the element's
index. -/
inductive CRet (α : Type) : Type
| byValue (v : α) : CRet α
| byAddress (i : Nat) : CRet α
deriving DecidableEq

/-- `front()`: wait out emptiness, then `return &_collection.front();` —
the address of the element at index 0 of the collection.  The collection is
not modified. -/
def front {α : Type} (wakes : List (List α)) (s : List α) :
    Option (CRet α × List Event) :=
  (waitLoop wakes s).map (fun p => (CRet.byAddress 0, blockTrace p.2))

/-- `back()`: wait out emptiness, then `return &_collection.back();` — the
address of the last element of the collection. -/
def back {α : Type} (wakes : List (List α)) (s : List α) :
    Option (CRet α × List Event) :=
  (waitLoop wakes s).map
    (fun p => (CRet.byAddress (p.1.length - 1), blockTrace p.2))

/-- `pop_front()`: wait out emptiness, then `_collection.pop_front()`.
Returns no element to the caller; the result is the new collection state
and the trace. -/
def pop_front {α : Type} (wakes : List (List α)) (s : List α) :
    Option (List α × List Event) :=
  (waitLoop wakes s).map (fun p => (p.1.tail, blockTrace p.2))

/-- `pop_back()`: wait out emptiness, then `_collection.pop_back()`. -/
def pop_back {α : Type} (wakes : List (List α)) (s : List α) :
    Option (List α × List Event) :=
  (waitLoop wakes s).map (fun p => (p.1.dropLast, blockTrace p.2))

/-- `size()`: wait out emptiness with the same loop, then return
`_collection.size()`.  The member is declared `uint size()`, while
`std::deque::size()` yields a `size_t`: the count is narrowed to 32-bit
unsigned on return, wrapping modulo `2 ^ 32`. -/
def size {α : Type} (wakes : List (List α)) (s : List α) :
    Option (Nat × List Event) :=
  (waitLoop wakes s).map (fun p => (p.1.length % 2 ^ 32, blockTrace p.2))

/-- `empty()`: a single unconditional `_condNewData.wait(lock)` — no
emptiness pre-check and no re-check loop — then return
`_collection.empty()` as read in the state at that single wake.  If no
notification (or spurious wake) ever arrives the call blocks forever. -/
def empty {α : Type} (wakes : List (List α)) (_s : List α) :
    Option (Bool × List Event) :=
  match wakes with
  | [] => none
  | w :: _ => some (w.isEmpty, blockTrace 1)

/-- Reading through what `front()`/`back()` returned, against the
collection state at the time of the read: a value is itself, an address is
dereferenced into the collection. -/
def deref {α : Type} (s : List α) : CRet α → Option α
| CRet.byValue v => some v
| CRet.byAddress i => s.get? i

/-- Collection state after a completed `push_back` of a value that
constructs successfully. -/
def pushBackS (x : Int) (s : List Int) : List Int :=
  (push_back (some x) s).state

/-- Collection state after a completed `push_front` of a value that
constructs successfully. -/
def pushFrontS (x : Int) (s : List Int) : List Int :=
  (push_front (some x) s).state

/-- One drain step on a non-blocked deque: read the front element through
the result of `front()`, then `pop_front()`. -/
def drainStep (s : List Int) : Option (Int × List Int) :=
  match front [] s with
  | none => none
  | some r =>
    match deref s r.1 with
    | none => none
    | some v =>
      match pop_front [] s with
      | none => none
      | some q => some (v, q.1)

/-- Full front-to-back drain by repeated `front()`+`pop_front()`: the list
of observed elements together with the final collection state. -/
def drainAll : Nat → List Int → List Int × List Int
| 0, s => ([], s)
| n + 1, s =>
  match drainStep s with
  | none => ([], s)
  | some (v, t) =>
    let r := drainAll n t
    (v :: r.1, r.2)

/-- Trace of every successful insertion through `addData_protected`. -/
def insTrace : List Event :=
  [Event.lockAcquire, Event.insertElem, Event.lockRelease, Event.cvNotifyOne]

theorem waitLoop_nonempty {α : Type} :
    ∀ (wakes : List (List α)) (s exitState : List α) (n : Nat),
      waitLoop wakes s = some (exitState, n) → exitState.isEmpty = false := by
  intro wakes
  induction wakes with
  | nil =>
      intro s exitState n h
      unfold waitLoop at h
      by_cases hs : s.isEmpty
      · simp [hs] at h
      · simp [hs] at h
        obtain ⟨h1, _⟩ := h
        simpa [← h1] using hs
  | cons w rest ih =>
      intro s exitState n h
      unfold waitLoop at h
      by_cases hs : s.isEmpty
      · rw [if_pos hs] at h
        cases hp : waitLoop rest w with
        | none => simp [hp] at h
        | some p =>
            simp [hp] at h
            exact h.1 ▸ ih w p.1 p.2 (by rw [hp])
      · simp [hs] at h
        obtain ⟨h1, _⟩ := h
        simpa [← h1] using hs

theorem blockTrace_no_notify (n : Nat) : Event.cvNotifyOne ∉ blockTrace n := by
  simp [blockTrace, List.mem_replicate]

theorem isEmpty_false_of_ne_nil {α : Type} :
    ∀ (s : List α), s ≠ [] → s.isEmpty = false
| [], h => absurd rfl h
| _ :: _, _ => rfl

theorem waitLoop_not_empty {α : Type} (wakes : List (List α)) (s : List α)
    (h : s.isEmpty = false) : waitLoop wakes s = some (s, 0) := by
  unfold waitLoop
  rw [h, if_neg Bool.false_ne_true]

theorem size_not_empty {α : Type} (wakes : List (List α)) (s : List α)
    (h : s.isEmpty = false) :
    size wakes s = some (s.length % 2 ^ 32, blockTrace 0) := by
  unfold size
  rw [waitLoop_not_empty wakes s h, Option.map_some']

/-- Claim C1, theorem at the failing input: on the non-empty deque `[42]`,
`front()` and `back()` execute `return &_collection.front();` and
`return &_collection.back();`, handing the caller the address of the
element inside internal storage (`CRet.byAddress 0`), which is not a copy
(`CRet.byValue v`) for any value `v` — contrary to the spec and to the
source's own doc comment and commented-out copy implementation. -/
theorem c1_front_back_return_address :
    front [] [(42 : Int)] = some (CRet.byAddress 0, blockTrace 0) ∧
    back [] [(42 : Int)] = some (CRet.byAddress 0, blockTrace 0) ∧
    ∀ v : Int, (CRet.byAddress 0 : CRet Int) ≠ CRet.byValue v := by
  refine ⟨rfl, rfl, fun v h => CRet.noConfusion h⟩

/-- Claim C2, counterexample: `empty()` is a blocking inspection operation,
yet it performs a single unconditional wait with no re-check loop.  Called
on the non-empty deque `[1]`, with a single wake at which the collection is
`[]`, it proceeds and returns `true`: it proceeded in a state where the
sequence is empty, and its shape is exactly the single wait-then-proceed
the claim says never occurs. -/
theorem c2_empty_no_recheck_cex :
    empty [([] : List Int)] [(1 : Int)] = some (true, blockTrace 1) ∧
    List.isEmpty ([] : List Int) = true := ⟨rfl, rfl⟩

/-- Claim C2 as amended: `pop_front`, `pop_back`, `front`, `back` and
`size` suspend while the sequence is empty, re-check the non-empty
condition in a loop after each wake, and proceed only in a state where the
sequence is non-empty; `empty()` alone deviates: it performs a single
unconditional wait with no re-check and then reads emptiness at whatever
state the single wake observed. -/
theorem c2_recheck_loop_amended :
    (∀ (wakes : List (List Int)) (s exitState : List Int) (n : Nat),
        waitLoop wakes s = some (exitState, n) → exitState.isEmpty = false) ∧
    (∀ (wakes : List (List Int)) (s : List Int),
        (pop_front wakes s).isSome = (waitLoop wakes s).isSome ∧
        (pop_back wakes s).isSome = (waitLoop wakes s).isSome ∧
        (front wakes s).isSome = (waitLoop wakes s).isSome ∧
        (back wakes s).isSome = (waitLoop wakes s).isSome ∧
        (size wakes s).isSome = (waitLoop wakes s).isSome) ∧
    (∀ (w : List Int) (rest : List (List Int)) (s : List Int),
        empty (w :: rest) s = some (w.isEmpty, blockTrace 1)) := by
  refine ⟨waitLoop_nonempty, ?_, fun w rest s => rfl⟩
  intro wakes s
  cases hp : waitLoop wakes s <;>
    simp [pop_front, pop_back, front, back, size, hp]

/-- Claim C2 amended, witness: on the already non-empty deque `[3]` with no
wake needed, the loop exits at once in the non-empty state `[3]`. -/
theorem c2_recheck_loop_amended_witness :
    List.isEmpty [(3 : Int)] = false :=
  c2_recheck_loop_amended.1 [] [3] [3] 0 rfl

/-- Claim C3: when the in-place construction of the new element throws
(`ctor = none`), each of the four insertion members propagates the
exception to the caller (`threw = true`), leaves the collection exactly as
it was, issues no notification, and the trace ends with the mutex release
performed by the `unique_lock` destructor, so subsequent operations are not
blocked. -/
theorem c3_construction_throw :
    ∀ (s : List Int),
      push_front (none : Option Int) s
        = ⟨s, [Event.lockAcquire, Event.lockRelease], true⟩ ∧
      push_back (none : Option Int) s
        = ⟨s, [Event.lockAcquire, Event.lockRelease], true⟩ ∧
      emplace_front (none : Option Int) s
        = ⟨s, [Event.lockAcquire, Event.lockRelease], true⟩ ∧
      emplace_back (none : Option Int) s
        = ⟨s, [Event.lockAcquire, Event.lockRelease], true⟩ ∧
      (push_front (none : Option Int) s).trace.getLast? = some Event.lockRelease ∧
      Event.cvNotifyOne ∉ (push_front (none : Option Int) s).trace := by
  intro s
  refine ⟨rfl, rfl, rfl, rfl, rfl, by simp [push_front, addData_protected]⟩

/-- Claim C4: `pop_front()` and `pop_back()` block until the sequence is
non-empty (they return only when the wait loop exits, which happens only in
a non-empty state), then remove exactly one element — the one at their end
(head for `pop_front`, last for `pop_back`) — return no element to the
caller, and their trace contains no `notify_one`. -/
theorem c4_pop_blocks_removes_one :
    ∀ (wakes : List (List Int)) (s : List Int),
      (waitLoop wakes s = none →
        pop_front wakes s = none ∧ pop_back wakes s = none) ∧
      (∀ (exitState : List Int) (n : Nat),
        waitLoop wakes s = some (exitState, n) →
          exitState ≠ [] ∧
          pop_front wakes s = some (exitState.tail, blockTrace n) ∧
          pop_back wakes s = some (exitState.dropLast, blockTrace n) ∧
          exitState.tail.length + 1 = exitState.length ∧
          exitState.dropLast.length + 1 = exitState.length ∧
          Event.cvNotifyOne ∉ blockTrace n) := by
  intro wakes s
  constructor
  · intro h
    exact ⟨by simp [pop_front, h], by simp [pop_back, h]⟩
  · intro exitState n h
    have hne := waitLoop_nonempty wakes s exitState n h
    have hnil : exitState ≠ [] := by
      intro he
      rw [he] at hne
      simp at hne
    refine ⟨hnil, by simp [pop_front, h], by simp [pop_back, h], ?_, ?_,
      blockTrace_no_notify n⟩
    · cases exitState with
      | nil => exact absurd rfl hnil
      | cons a t => simp
    · cases exitState with
      | nil => exact absurd rfl hnil
      | cons a t => simp [List.length_dropLast]

/-- Claim C4, witness: draining one element from `[7, 8]` at either end. -/
theorem c4_pop_blocks_removes_one_witness :
    pop_front [] [(7 : Int), 8] = some ([8], blockTrace 0) ∧
    pop_back [] [(7 : Int), 8] = some ([7], blockTrace 0) := by
  have h := (c4_pop_blocks_removes_one [] [7, 8]).2 [7, 8] 0 rfl
  exact ⟨h.2.1, h.2.2.1⟩

/-- Claim C5: every successful insertion performs, in order, lock
acquisition, the insertion, lock release, and then exactly one
`notify_one`; the notification comes strictly after the release, so the
lock is not held during the wake. -/
theorem c5_insertion_protocol :
    ∀ (x : Int) (s : List Int),
      push_front (some x) s = ⟨x :: s, insTrace, false⟩ ∧
      push_back (some x) s = ⟨s ++ [x], insTrace, false⟩ ∧
      emplace_front (some x) s = ⟨x :: s, insTrace, false⟩ ∧
      emplace_back (some x) s = ⟨s ++ [x], insTrace, false⟩ ∧
      insTrace = [Event.lockAcquire, Event.insertElem, Event.lockRelease,
        Event.cvNotifyOne] ∧
      insTrace.count Event.cvNotifyOne = 1 ∧
      insTrace.indexOf Event.lockRelease < insTrace.indexOf Event.cvNotifyOne := by
  intro x s
  exact ⟨rfl, rfl, rfl, rfl, rfl, by decide, by decide⟩

/-- Claim C6: `clear()` completes for every state — empty included — with
no condition-variable wait and no notification, and leaves the sequence
with zero elements. -/
theorem c6_clear :
    ∀ (s : List Int),
      clear s = ⟨[], [Event.lockAcquire, Event.lockRelease], false⟩ ∧
      (clear s).state.length = 0 ∧
      Event.cvWait ∉ (clear s).trace ∧
      Event.cvNotifyOne ∉ (clear s).trace := by
  intro s
  exact ⟨rfl, rfl, by simp [clear], by simp [clear]⟩

/-- Claim C7: no insertion member ever suspends on the condition variable —
their traces contain no wait for any state and any construction outcome —
and an insertion throws exactly when the element construction itself
fails. -/
theorem c7_insert_never_blocks :
    ∀ (ctor : Option Int) (s : List Int),
      Event.cvWait ∉ (push_front ctor s).trace ∧
      Event.cvWait ∉ (push_back ctor s).trace ∧
      Event.cvWait ∉ (emplace_front ctor s).trace ∧
      Event.cvWait ∉ (emplace_back ctor s).trace ∧
      ((push_front ctor s).threw = true ↔ ctor = none) ∧
      ((push_back ctor s).threw = true ↔ ctor = none) ∧
      ((emplace_front ctor s).threw = true ↔ ctor = none) ∧
      ((emplace_back ctor s).threw = true ↔ ctor = none) := by
  intro ctor s
  cases ctor <;>
    simp [push_front, push_back, emplace_front, emplace_back, addData_protected]

/-- Claim C8: each of the three completion orders of thread A's
`push_back(1); push_back(2)` and thread B's `push_front(0)` leaves the
collection `[0, 1, 2]`, and a full front-to-back drain by `front()` (read
through the address it returns) followed by `pop_front()` observes exactly
`[0, 1, 2]`, once each, ending empty. -/
theorem c8_scenario_drain :
    pushFrontS 0 (pushBackS 2 (pushBackS 1 [])) = [0, 1, 2] ∧
    pushBackS 2 (pushFrontS 0 (pushBackS 1 [])) = [0, 1, 2] ∧
    pushBackS 2 (pushBackS 1 (pushFrontS 0 [])) = [0, 1, 2] ∧
    drainAll 3 [0, 1, 2] = ([0, 1, 2], []) := by
  exact ⟨rfl, rfl, rfl, rfl⟩

/-- Claim C9, counterexample: on a deque holding exactly `2 ^ 32` elements,
`size()` proceeds without waiting and reports `(2 ^ 32) % 2 ^ 32 = 0`: the
`size_t` count is narrowed to the declared `uint` return type, so the claim
that `size()` can never report zero fails. -/
theorem c9_size_reports_zero_cex :
    size [] (List.replicate (2 ^ 32) (0 : Int)) = some (0, blockTrace 0) := by
  have hnil : List.replicate (2 ^ 32) (0 : Int) ≠ [] :=
    List.length_pos.mp (by rw [List.length_replicate]; exact Nat.two_pow_pos 32)
  have h := size_not_empty [] (List.replicate (2 ^ 32) (0 : Int))
    (isEmpty_false_of_ne_nil _ hnil)
  rw [List.length_replicate, Nat.mod_self] at h
  exact h

/-- Claim C9 as amended: whenever `size()` returns, the element count at the
moment of return is at least 1 (the wait loop exits only in a non-empty
state, and the count is read under the same lock hold), and the value
reported is that count narrowed to 32-bit unsigned, i.e. the count modulo
`2 ^ 32`; the reported value is therefore at least 1 whenever the count is
below `2 ^ 32`, but at a count that is a multiple of `2 ^ 32` the member
reports 0. -/
theorem c9_size_reports_count_mod_uint :
    ∀ (wakes : List (List Int)) (s exitState : List Int) (k : Nat),
      waitLoop wakes s = some (exitState, k) →
        size wakes s = some (exitState.length % 2 ^ 32, blockTrace k) ∧
        1 ≤ exitState.length ∧
        (exitState.length < 2 ^ 32 → 1 ≤ exitState.length % 2 ^ 32) := by
  intro wakes s exitState k h
  have hne := waitLoop_nonempty wakes s exitState k h
  have hnil : exitState ≠ [] := by
    intro he
    rw [he] at hne
    simp at hne
  have hl : 0 < exitState.length := List.length_pos.mpr hnil
  refine ⟨by simp [size, h], hl, ?_⟩
  intro hlt
  rw [Nat.mod_eq_of_lt hlt]
  exact hl

/-- Claim C9 amended, witness: `size()` on the singleton deque `[5]`
reports `1 % 2 ^ 32 = 1`. -/
theorem c9_size_reports_count_mod_uint_witness :
    size ([] : List (List Int)) [5] = some (1, blockTrace 0) :=
  (c9_size_reports_count_mod_uint [] [5] [5] 0 rfl).1

/-- Claim C10: `empty()` performs exactly one unconditional wait — it
blocks forever when no wake ever arrives, even on a non-empty deque — and
when the single wake arrives it returns the emptiness of the collection at
that wake, which can be `true`. -/
theorem c10_empty_single_unconditional_wait :
    (∀ s : List Int, empty [] s = none) ∧
    (∀ (w : List Int) (rest : List (List Int)) (s : List Int),
        empty (w :: rest) s = some (w.isEmpty, blockTrace 1)) ∧
    empty [([] : List Int)] [(5 : Int)] = some (true, blockTrace 1) := by
  exact ⟨fun s => rfl, fun w rest s => rfl, rfl⟩

end TDequeConcurrent
